import Mathlib

/-!
Shallow embedding of the generic Mongoose `EntityRepository` (src/app.module.ts,
second document: the `EntityRepository<T>` class) and of the
`PaginationQueryParams` request decorator, together with proofs about the
claims of the specification.

Documents are modelled with the only fields the repository itself inspects:
an identifier (`id`), the optimistic-concurrency version counter (`__v`),
the soft-delete flag (`deleted`, consulted by `findPaginated`'s implicit
filter), and an association list of remaining integer-valued payload fields.
Asynchronous store calls that can fail are modelled by passing the store
call's outcome (`Except DbErr _`) to the repository operation; JavaScript
`number` values are modelled as `Int`, with non-finite results (division by
zero in `pageNumber`) modelled as `none : Option Int`.
-/

namespace Repo

/-- Normalized error `{message, statusCode}` raised as `HttpException`. -/
structure HttpErr where
  message : String
  statusCode : Nat
deriving DecidableEq, Repr

/-- Raw store-level (Mongo driver) error: the `code` field consulted by
`handleDatabaseError` (absent = `none`) and the JSON rendering of its
`keyValue` field (the argument of `JSON.stringify(error.keyValue)`). -/
structure DbErr where
  code : Option Int
  keyValueJson : String
deriving DecidableEq, Repr

/-- An error observable by a repository caller: either a normalized
`HttpException` or a raw store rejection that escaped un-normalized. -/
inductive RepoErr where
  | http (e : HttpErr)
  | raw (e : DbErr)
deriving DecidableEq, Repr

/-- A stored document: identifier, version counter `__v`, soft-delete flag,
and the remaining payload fields as an association list. -/
structure Doc where
  id : Nat
  __v : Int
  deleted : Bool
  fields : List (String × Int)
deriving DecidableEq, Repr

/-- A caller-supplied update payload for `updateById`: the optional version
`__v` and the payload fields to set. -/
structure UpdateQ where
  __v : Option Int
  fields : List (String × Int)
deriving DecidableEq, Repr

/-- A filter query: equality conditions on payload fields plus an optional
condition on the `deleted` field (the key that `findPaginated` overrides
via `{ ...entityFilterQuery, deleted: false }`). -/
structure Filter where
  conds : List (String × Int)
  deletedCond : Option Bool
deriving DecidableEq, Repr

/-- The page result of `findPaginated` / `findPaginatedLean`.  `pageNumber`
is `Option Int`: `none` models a non-finite JavaScript number
(`Math.floor(skip / 0) + 1` is `Infinity` or `NaN`). -/
structure PageResult where
  data : List Doc
  total : Int
  currentPageSize : Int
  hasNextPage : Bool
  hasPreviousPage : Bool
  pageNumber : Option Int
deriving DecidableEq, Repr

/-- What happened to the session opened by `updateById`. -/
structure SessionLog where
  committed : Bool
  aborted : Bool
  ended : Bool
deriving DecidableEq, Repr

/-- The full observable effect of one `updateById` call: the value returned
or error thrown (`.ok none` = the function returned `undefined`), the store
contents after the call, and the session log. -/
structure UpdateByIdResult where
  outcome : Except HttpErr (Option Doc)
  store : List Doc
  log : SessionLog

/-- Model of the private `handleDatabaseError`: the `switch (error.code)`
mapping raw store errors to a normalized `{message, statusCode}` pair
(logging, enabled by `errLogger`, has no observable effect on the result). -/
def handleDatabaseError (error : DbErr) : HttpErr :=
  if error.code == some 11000 then ⟨error.keyValueJson ++ " already exists", 400⟩
  else if error.code == some 11001 then ⟨"Duplicate key error", 400⟩
  else if error.code == some 12000 then ⟨"Invalid index specification", 400⟩
  else if error.code == some 12010 then ⟨"Cannot build index on a non-existing field", 400⟩
  else if error.code == some 12102 then ⟨"Index key too long", 400⟩
  else if error.code == some 12134 then ⟨"Index not found", 400⟩
  else ⟨"Database operation failed", 500⟩

/-- `create`: `try { return await save() } catch (err) { handleDatabaseError(err) }`,
parameterized by the outcome of the store's `save` call. -/
def create (saveResult : Except DbErr Doc) : Except RepoErr Doc :=
  match saveResult with
  | .ok d => .ok d
  | .error e => .error (.http (handleDatabaseError e))

/-- `createMany`: same catch-and-normalize wrapper around the bulk insert. -/
def createMany (insertResult : Except DbErr (List Doc)) : Except RepoErr (List Doc) :=
  match insertResult with
  | .ok ds => .ok ds
  | .error e => .error (.http (handleDatabaseError e))

/-- `count`: catch-and-normalize wrapper around `countDocuments(...).exec()`. -/
def count (countResult : Except DbErr Int) : Except RepoErr Int :=
  match countResult with
  | .ok n => .ok n
  | .error e => .error (.http (handleDatabaseError e))

/-- `distinctValues`: catch-and-normalize wrapper around `distinct(...).exec()`. -/
def distinctValues (distinctResult : Except DbErr (List Int)) : Except RepoErr (List Int) :=
  match distinctResult with
  | .ok vs => .ok vs
  | .error e => .error (.http (handleDatabaseError e))

/-- `updateOne`: on success returns `updateResult.modifiedCount || 0`
(`none` models an absent `modifiedCount`), errors are normalized. -/
def updateOne (updateResult : Except DbErr (Option Int)) : Except RepoErr Int :=
  match updateResult with
  | .ok m => .ok (m.getD 0)
  | .error e => .error (.http (handleDatabaseError e))

/-- `updateMany`: same shape as `updateOne`. -/
def updateMany (updateResult : Except DbErr (Option Int)) : Except RepoErr Int :=
  match updateResult with
  | .ok m => .ok (m.getD 0)
  | .error e => .error (.http (handleDatabaseError e))

/-- `findOneAndUpdate`: returns the store's document (or `null`), errors
are normalized. -/
def findOneAndUpdate (storeResult : Except DbErr (Option Doc)) : Except RepoErr (Option Doc) :=
  match storeResult with
  | .ok d => .ok d
  | .error e => .error (.http (handleDatabaseError e))

/-- `deleteOne`: on success returns `deletedCount >= 1`, errors normalized. -/
def deleteOne (deleteResult : Except DbErr Int) : Except RepoErr Bool :=
  match deleteResult with
  | .ok n => .ok (n ≥ 1)
  | .error e => .error (.http (handleDatabaseError e))

/-- `deleteMany`: same shape as `deleteOne`. -/
def deleteMany (deleteResult : Except DbErr Int) : Except RepoErr Bool :=
  match deleteResult with
  | .ok n => .ok (n ≥ 1)
  | .error e => .error (.http (handleDatabaseError e))

/-- `aggregate`: catch-and-normalize wrapper around the pipeline execution. -/
def aggregate (pipelineResult : Except DbErr (List Doc)) : Except RepoErr (List Doc) :=
  match pipelineResult with
  | .ok ds => .ok ds
  | .error e => .error (.http (handleDatabaseError e))

/-- `fullTextSearch` returns the store promise WITHOUT `await` inside its
`try`, so a store rejection bypasses the `catch` and reaches the caller
raw, never passing through `handleDatabaseError`. -/
def fullTextSearch (findResult : Except DbErr (List Doc)) : Except RepoErr (List Doc) :=
  match findResult with
  | .ok ds => .ok ds
  | .error e => .error (.raw e)

/-- Does a document satisfy a filter (equality on each listed payload field,
plus the optional condition on `deleted`)? -/
def matchesFilter (f : Filter) (d : Doc) : Bool :=
  (f.conds.all fun p => d.fields.lookup p.1 == some p.2)
    && (match f.deletedCond with
        | none => true
        | some b => d.deleted == b)

/-- The store's `countDocuments(filter)`: number of matching documents. -/
def countDocuments (store : List Doc) (f : Filter) : Int :=
  ((store.filter (matchesFilter f)).length : Int)

/-- The store's `find(filter).skip(skip).limit(limit)` page of documents. -/
def pageData (store : List Doc) (f : Filter) (skip cps : Int) : List Doc :=
  ((store.filter (matchesFilter f)).drop skip.toNat).take cps.toNat

/-- `{ ...entityFilterQuery, deleted: false }`: the spread keeps every
field condition and overrides the `deleted` key with `false`. -/
def injectDeletedFalse (f : Filter) : Filter :=
  ⟨f.conds, some false⟩

/-- `Math.floor(a / b)` on JavaScript numbers for integer `a`, `b`:
floor division when `b ≠ 0`, and `none` (non-finite: `Infinity`, `-Infinity`
or `NaN`) when `b = 0`. -/
def jsFloorDiv (a b : Int) : Option Int :=
  if b = 0 then none else some (Int.fdiv a b)

/-- `findPaginated(filter, {skip, limit})`: defaults `limit ?? 100` and
`skip || 0`, injects `deleted: false` into the filter, pages the data,
counts against the SAME (injected) filter, and computes the page
metadata. -/
def findPaginated (store : List Doc) (entityFilterQuery : Filter)
    (skipOpt limitOpt : Option Int) : PageResult :=
  let currentPageSize := limitOpt.getD 100
  let skip := skipOpt.getD 0
  let fq := injectDeletedFalse entityFilterQuery
  let cnt := countDocuments store fq
  { data := pageData store fq skip currentPageSize
    total := cnt
    currentPageSize := currentPageSize
    hasNextPage := decide (skip + currentPageSize < cnt)
    hasPreviousPage := decide (0 < skip)
    pageNumber := (jsFloorDiv skip currentPageSize).map fun x => x + 1 }

/-- `findPaginatedLean(filter, {skip, limit})`: identical to `findPaginated`
except that the caller's filter is used unmodified (no `deleted: false`
injection) and the data is returned lean. -/
def findPaginatedLean (store : List Doc) (entityFilterQuery : Filter)
    (skipOpt limitOpt : Option Int) : PageResult :=
  let currentPageSize := limitOpt.getD 100
  let skip := skipOpt.getD 0
  let cnt := countDocuments store entityFilterQuery
  { data := pageData store entityFilterQuery skip currentPageSize
    total := cnt
    currentPageSize := currentPageSize
    hasNextPage := decide (skip + currentPageSize < cnt)
    hasPreviousPage := decide (0 < skip)
    pageNumber := (jsFloorDiv skip currentPageSize).map fun x => x + 1 }

/-- `findById(id)`: throws `No data found with ID <id>` / 404 when the
store holds no document with that identifier. -/
def findById (store : List Doc) (i : Nat) : Except HttpErr Doc :=
  match store.find? (fun d => d.id == i) with
  | none => .error ⟨"No data found with ID " ++ toString i, 404⟩
  | some d => .ok d

/-- `findOne(filter)`: returns the first matching document or `null`
(no error on absence). -/
def findOne (store : List Doc) (f : Filter) : Option Doc :=
  store.find? (matchesFilter f)

/-- The guard `update.__v && existingDoc.__v !== update.__v`: the version
check fires only when the supplied `__v` is truthy (present and nonzero)
and differs from the stored version. -/
def versionConflict (u : UpdateQ) (d : Doc) : Bool :=
  match u.__v with
  | none => false
  | some uv => uv != 0 && d.__v != uv

/-- Set one payload field (overwrite if present, append otherwise). -/
def setField (fs : List (String × Int)) (k : String) (x : Int) : List (String × Int) :=
  if fs.any (fun p => p.1 == k) then
    fs.map (fun p => if p.1 == k then (k, x) else p)
  else fs ++ [(k, x)]

/-- Apply all update fields in order. -/
def setFields (fs us : List (String × Int)) : List (String × Int) :=
  us.foldl (fun acc p => setField acc p.1 p.2) fs

/-- `findByIdAndUpdate(id, { ...update, __v: existingDoc.__v + 1 })`: the
payload fields are set and `__v` is overridden with the stored version
plus one. -/
def applyUpdateDoc (u : UpdateQ) (d : Doc) : Doc :=
  ⟨d.id, d.__v + 1, d.deleted, setFields d.fields u.fields⟩

/-- Body of `updateById` after the session is started, as a function of the
`findById(id).session(session)` result.  `updErr` is the outcome of the
store's `findByIdAndUpdate` call (`some e` = the call rejects with `e`).
The catch block aborts the transaction, ends the session, re-derives the
NOT_FOUND / CONFLICT sentinels into their public errors, and for any other
error falls through returning `undefined` (`.ok none`). -/
def updateByIdAux (store : List Doc) (i : Nat) (u : UpdateQ)
    (updErr : Option DbErr) : Option Doc → UpdateByIdResult
  | none =>
    ⟨.error ⟨"No data found with ID " ++ toString i, 404⟩, store, ⟨false, true, true⟩⟩
  | some existingDoc =>
    if versionConflict u existingDoc then
      ⟨.error ⟨"Concurrency conflict", 409⟩, store, ⟨false, true, true⟩⟩
    else
      match updErr with
      | some _ => ⟨.ok none, store, ⟨false, true, true⟩⟩
      | none =>
        let nd := applyUpdateDoc u existingDoc
        ⟨.ok (some nd), store.map (fun d => if d.id == i then nd else d),
          ⟨true, false, true⟩⟩

/-- `updateById(id, update)`: start session and transaction, read the
current document inside the session, run the optimistic-concurrency body. -/
def updateById (store : List Doc) (i : Nat) (u : UpdateQ)
    (updErr : Option DbErr) : UpdateByIdResult :=
  updateByIdAux store i u updErr (store.find? (fun d => d.id == i))

/-- Is an `updateById` outcome a thrown error? -/
def isErrB (x : Except HttpErr (Option Doc)) : Bool :=
  match x with
  | .error _ => true
  | .ok _ => false

/-- JavaScript regex word character (`\w`): ASCII letter, digit or `_`. -/
def isWordChar (c : Char) : Bool :=
  c.isAlpha || c.isDigit || c == '_'

/-- The alternatives of `/\b(gte|gt|lte|lt|in|nin|eq|ne|size|or|not|exists)\b/g`,
in the order the regex engine tries them. -/
def mongoOpsStr : List String :=
  ["gte", "gt", "lte", "lt", "in", "nin", "eq", "ne", "size", "or", "not", "exists"]

/-- The same alternatives as character lists. -/
def mongoOps : List (List Char) :=
  mongoOpsStr.map String.toList

/-- Match `w` as a literal at the head of `cs`; return the rest on success. -/
def stripLit : List Char → List Char → Option (List Char)
  | [], cs => some cs
  | _ :: _, [] => none
  | w :: ws, c :: cs => if c == w then stripLit ws cs else none

/-- The trailing `\b`: end of input or a non-word character (every
alternative ends in a word character). -/
def boundaryAfter : List Char → Bool
  | [] => true
  | c :: _ => !isWordChar c

/-- First alternative (in regex order) that matches at the current position
with a word boundary after it; returns the matched word and the rest. -/
def findOpAt (cs : List Char) : Option (List Char × List Char) :=
  mongoOps.findSome? fun w =>
    match stripLit w cs with
    | none => none
    | some rest => if boundaryAfter rest then some (w, rest) else none

/-- One left-to-right pass of `filterStr.replace(/\b(...)\b/g, m => ` $ `+m)`:
at each position where the preceding character is not a word character
(the leading `\b`), try the alternatives; on a match emit `$` plus the word
and resume after it, otherwise copy one character.  `fuel` bounds the
recursion and is initialized to the input length (a match always consumes
at least one character, so the fuel never runs out). -/
def replaceOpsFuel : Nat → Bool → List Char → List Char
  | 0, _, cs => cs
  | _ + 1, _, [] => []
  | fuel + 1, prevIsWord, c :: cs =>
    if prevIsWord then c :: replaceOpsFuel fuel (isWordChar c) cs
    else
      match findOpAt (c :: cs) with
      | some (w, rest) => '$' :: (w ++ replaceOpsFuel fuel true rest)
      | none => c :: replaceOpsFuel fuel (isWordChar c) cs

/-- The whole operator rewrite on the raw filter string. -/
def replaceOps (s : String) : String :=
  String.mk (replaceOpsFuel s.toList.length false s.toList)

/-- The second rewrite, `.replace(/\\/g, '')`: drop every backslash. -/
def stripBackslashes (s : String) : String :=
  String.mk (s.toList.filter fun c => c != '\\')

/-- The full string transformation the decorator applies to
`req.query.filter` before `JSON.parse` hands the filter object on. -/
def rewriteFilterString (s : String) : String :=
  stripBackslashes (replaceOps s)

theorem length_dropWhile_le {α : Type} (p : α → Bool) (l : List α) :
    (l.dropWhile p).length ≤ l.length := by
  induction l with
  | nil => exact Nat.le_refl _
  | cons a t ih =>
    by_cases h : p a = true
    · rw [List.dropWhile_cons_of_pos h]
      exact Nat.le_succ_of_le ih
    · rw [List.dropWhile_cons_of_neg h]

/-- Modelled from the spec's words (the amended reading of the rewrite):
a token that is one of the operator words is rewritten to its `$`-prefixed
form, any other token is left unchanged. -/
def rewriteToken (t : List Char) : List Char :=
  if t ∈ mongoOps then '$' :: t else t

/-- Modelled from the spec's words: the token-level reference rewrite.
Split the text into maximal word-character runs separated by non-word
characters, rewrite each run with `rewriteToken` and keep every non-word
character in place.  The claim compares the source's regex scanner
`replaceOps` against this definition.  As with the scanner, `fuel` bounds
the recursion and is initialized to the input length, which always
suffices because each step consumes at least one character. -/
def rewriteTokensFuel : Nat → List Char → List Char
  | 0, cs => cs
  | _ + 1, [] => []
  | fuel + 1, c :: cs =>
    if isWordChar c then
      rewriteToken ((c :: cs).takeWhile isWordChar)
        ++ rewriteTokensFuel fuel ((c :: cs).dropWhile isWordChar)
    else c :: rewriteTokensFuel fuel cs

/-- The token-level reference rewrite of a whole character list. -/
def rewriteTokens (cs : List Char) : List Char :=
  rewriteTokensFuel cs.length cs

theorem stripLit_eq_some_iff :
    ∀ (w cs r : List Char), stripLit w cs = some r ↔ cs = w ++ r := by
  intro w
  induction w with
  | nil =>
    intro cs r
    simp [stripLit]
  | cons a ws ih =>
    intro cs r
    cases cs with
    | nil => simp [stripLit]
    | cons c ct =>
      by_cases hc : c = a
      · subst hc
        simp [stripLit, ih]
      · simp [stripLit, hc]

theorem boundary_run_nil (r : List Char) (hb : boundaryAfter r = true) :
    r.takeWhile isWordChar = [] ∧ r.dropWhile isWordChar = r := by
  cases r with
  | nil => exact ⟨rfl, rfl⟩
  | cons c t =>
    have hc : ¬ isWordChar c = true := by
      simp [boundaryAfter] at hb
      simp [hb]
    exact ⟨List.takeWhile_cons_of_neg hc, List.dropWhile_cons_of_neg hc⟩

theorem word_run_unique :
    ∀ (w r : List Char), w.all isWordChar = true → boundaryAfter r = true →
      (w ++ r).takeWhile isWordChar = w ∧ (w ++ r).dropWhile isWordChar = r := by
  intro w
  induction w with
  | nil =>
    intro r _ hb
    simpa using boundary_run_nil r hb
  | cons a ws ih =>
    intro r hall hb
    rw [List.all_cons, Bool.and_eq_true] at hall
    have hrec := ih r hall.2 hb
    constructor
    · rw [List.cons_append, List.takeWhile_cons_of_pos hall.1, hrec.1]
    · rw [List.cons_append, List.dropWhile_cons_of_pos hall.1, hrec.2]

theorem boundaryAfter_dropWhile (cs : List Char) :
    boundaryAfter (cs.dropWhile isWordChar) = true := by
  induction cs with
  | nil => rfl
  | cons c t ih =>
    by_cases h : isWordChar c = true
    · rw [List.dropWhile_cons_of_pos h]
      exact ih
    · rw [List.dropWhile_cons_of_neg h]
      simp only [boundaryAfter, Bool.not_eq_true] at h ⊢
      simp [h]

theorem findSome?_all_none {α β : Type} (f : α → Option β) :
    ∀ l : List α, (∀ a ∈ l, f a = none) → l.findSome? f = none := by
  intro l
  induction l with
  | nil => intro h; rfl
  | cons a t ih =>
    intro h
    rw [List.findSome?, h a (List.mem_cons_self a t)]
    exact ih fun x hx => h x (List.mem_cons_of_mem a hx)

theorem findSome?_eq_of_unique {α β : Type} (f : α → Option β) :
    ∀ (l : List α) (a : α) (b : β), a ∈ l → f a = some b →
      (∀ x ∈ l, ∀ y, f x = some y → y = b) → l.findSome? f = some b := by
  intro l
  induction l with
  | nil => intro a b ha _ _; exact absurd ha (List.not_mem_nil a)
  | cons x t ih =>
    intro a b ha hfa huniq
    rw [List.findSome?]
    cases hfx : f x with
    | some y =>
      have hy : y = b := huniq x (List.mem_cons_self x t) y hfx
      rw [hy]
    | none =>
      rcases List.mem_cons.mp ha with h | h
      · subst h
        rw [hfa] at hfx
        cases hfx
      · exact ih a b h hfa fun z hz => huniq z (List.mem_cons_of_mem x hz)

theorem mongoOps_all_wordChars : ∀ w ∈ mongoOps, w.all isWordChar = true := by
  decide

theorem nil_not_mem_mongoOps : ([] : List Char) ∉ mongoOps := by
  decide

theorem replaceOpsFuel_true_cons (f : Nat) (c : Char) (cs : List Char) :
    replaceOpsFuel (f + 1) true (c :: cs) = c :: replaceOpsFuel f (isWordChar c) cs := by
  simp [replaceOpsFuel]

theorem replaceOpsFuel_false_none (f : Nat) (c : Char) (cs : List Char)
    (h : findOpAt (c :: cs) = none) :
    replaceOpsFuel (f + 1) false (c :: cs) = c :: replaceOpsFuel f (isWordChar c) cs := by
  simp [replaceOpsFuel, h]

theorem replaceOpsFuel_false_some (f : Nat) (c : Char) (cs w rest : List Char)
    (h : findOpAt (c :: cs) = some (w, rest)) :
    replaceOpsFuel (f + 1) false (c :: cs) = '$' :: (w ++ replaceOpsFuel f true rest) := by
  simp [replaceOpsFuel, h]

theorem rewriteTokensFuel_cons_pos (g : Nat) (c : Char) (cs : List Char)
    (h : isWordChar c = true) :
    rewriteTokensFuel (g + 1) (c :: cs)
      = rewriteToken ((c :: cs).takeWhile isWordChar)
          ++ rewriteTokensFuel g ((c :: cs).dropWhile isWordChar) := by
  simp [rewriteTokensFuel, h]

theorem rewriteTokensFuel_cons_neg (g : Nat) (c : Char) (cs : List Char)
    (h : isWordChar c = false) :
    rewriteTokensFuel (g + 1) (c :: cs) = c :: rewriteTokensFuel g cs := by
  simp [rewriteTokensFuel, h]

theorem findOpAt_eq_some (cs : List Char)
    (hin : cs.takeWhile isWordChar ∈ mongoOps) :
    findOpAt cs = some (cs.takeWhile isWordChar, cs.dropWhile isWordChar) := by
  rw [findOpAt]
  apply findSome?_eq_of_unique _ mongoOps (cs.takeWhile isWordChar) _ hin
  · have hsplit : cs = cs.takeWhile isWordChar ++ cs.dropWhile isWordChar :=
      (List.takeWhile_append_dropWhile isWordChar cs).symm
    have hstrip : stripLit (cs.takeWhile isWordChar) cs = some (cs.dropWhile isWordChar) :=
      (stripLit_eq_some_iff _ _ _).mpr hsplit
    rw [hstrip]
    simp [boundaryAfter_dropWhile cs]
  · intro x hx y hy
    cases hs : stripLit x cs with
    | none => rw [hs] at hy; cases hy
    | some r =>
      rw [hs] at hy
      dsimp only at hy
      by_cases hb : boundaryAfter r = true
      · rw [if_pos hb] at hy
        have hxy : (x, r) = y := Option.some.inj hy
        have hcs : cs = x ++ r := (stripLit_eq_some_iff _ _ _).mp hs
        have hu := word_run_unique x r (mongoOps_all_wordChars x hx) hb
        rw [hcs, hu.1, hu.2]
        exact hxy.symm
      · rw [if_neg hb] at hy
        cases hy

theorem findOpAt_eq_none (cs : List Char)
    (hnin : cs.takeWhile isWordChar ∉ mongoOps) :
    findOpAt cs = none := by
  rw [findOpAt]
  apply findSome?_all_none
  intro w hw
  cases hs : stripLit w cs with
  | none => rfl
  | some r =>
    dsimp only
    by_cases hb : boundaryAfter r = true
    · exfalso
      have hcs : cs = w ++ r := (stripLit_eq_some_iff _ _ _).mp hs
      have hu := word_run_unique w r (mongoOps_all_wordChars w hw) hb
      rw [hcs, hu.1] at hnin
      exact hnin hw
    · rw [if_neg hb]

theorem replaceOpsFuel_eq_rewriteTokensFuel :
    ∀ (n : Nat) (cs : List Char), cs.length ≤ n →
      ∀ fuel : Nat, cs.length ≤ fuel → ∀ g : Nat, cs.length ≤ g →
        replaceOpsFuel fuel false cs = rewriteTokensFuel g cs
        ∧ replaceOpsFuel fuel true cs
            = cs.takeWhile isWordChar ++ rewriteTokensFuel g (cs.dropWhile isWordChar) := by
  intro n
  induction n with
  | zero =>
    intro cs hcs fuel _ g _
    have hnil : cs = [] := List.length_eq_zero.mp (Nat.le_zero.mp hcs)
    subst hnil
    cases fuel <;> cases g <;> exact ⟨rfl, rfl⟩
  | succ n ih =>
    intro cs hcs fuel hf g hg
    cases cs with
    | nil => cases fuel <;> cases g <;> exact ⟨rfl, rfl⟩
    | cons c cs2 =>
      cases fuel with
      | zero =>
        exfalso
        rw [List.length_cons] at hf
        omega
      | succ f =>
        cases g with
        | zero =>
          exfalso
          rw [List.length_cons] at hg
          omega
        | succ g2 =>
          have hlen : cs2.length ≤ n := by rw [List.length_cons] at hcs; omega
          have hfl : cs2.length ≤ f := by rw [List.length_cons] at hf; omega
          have hgl : cs2.length ≤ g2 := by rw [List.length_cons] at hg; omega
          have hgl1 : cs2.length ≤ g2 + 1 := Nat.le_succ_of_le hgl
          have hdn : (cs2.dropWhile isWordChar).length ≤ n :=
            Nat.le_trans (length_dropWhile_le isWordChar cs2) hlen
          have hdf : (cs2.dropWhile isWordChar).length ≤ f :=
            Nat.le_trans (length_dropWhile_le isWordChar cs2) hfl
          have hdg : (cs2.dropWhile isWordChar).length ≤ g2 :=
            Nat.le_trans (length_dropWhile_le isWordChar cs2) hgl
          constructor
          · by_cases hw : isWordChar c = true
            · by_cases hin : (c :: cs2).takeWhile isWordChar ∈ mongoOps
              · have hfind := findOpAt_eq_some (c :: cs2) hin
                have hrest : (c :: cs2).dropWhile isWordChar = cs2.dropWhile isWordChar :=
                  List.dropWhile_cons_of_pos hw
                have hbn := boundary_run_nil _ (boundaryAfter_dropWhile (c :: cs2))
                have hrec := (ih (cs2.dropWhile isWordChar) hdn f hdf g2 hdg).2
                rw [hrest] at hfind hbn
                rw [replaceOpsFuel_false_some f c cs2 _ _ hfind]
                rw [hrec, hbn.1, hbn.2, List.nil_append]
                rw [rewriteTokensFuel_cons_pos g2 c cs2 hw, hrest]
                rw [rewriteToken, if_pos hin, List.cons_append]
              · have hfind := findOpAt_eq_none (c :: cs2) hin
                have hrec := (ih cs2 hlen f hfl g2 hgl).2
                rw [replaceOpsFuel_false_none f c cs2 hfind, hw, hrec]
                rw [rewriteTokensFuel_cons_pos g2 c cs2 hw]
                rw [rewriteToken, if_neg hin]
                rw [List.takeWhile_cons_of_pos hw, List.dropWhile_cons_of_pos hw,
                  List.cons_append]
            · have hwf : isWordChar c = false := by
                rw [Bool.not_eq_true] at hw
                exact hw
              have hnin : (c :: cs2).takeWhile isWordChar ∉ mongoOps := by
                rw [List.takeWhile_cons_of_neg hw]
                exact nil_not_mem_mongoOps
              have hfind := findOpAt_eq_none (c :: cs2) hnin
              have hrec := (ih cs2 hlen f hfl g2 hgl).1
              rw [replaceOpsFuel_false_none f c cs2 hfind, hwf, hrec]
              rw [rewriteTokensFuel_cons_neg g2 c cs2 hwf]
          · by_cases hw : isWordChar c = true
            · have hrec := (ih cs2 hlen f hfl (g2 + 1) hgl1).2
              rw [replaceOpsFuel_true_cons f c cs2, hw, hrec]
              rw [List.takeWhile_cons_of_pos hw, List.dropWhile_cons_of_pos hw,
                List.cons_append]
            · have hwf : isWordChar c = false := by
                rw [Bool.not_eq_true] at hw
                exact hw
              have hrec := (ih cs2 hlen f hfl g2 hgl).1
              rw [replaceOpsFuel_true_cons f c cs2, hwf, hrec]
              rw [List.takeWhile_cons_of_neg hw, List.dropWhile_cons_of_neg hw,
                List.nil_append, rewriteTokensFuel_cons_neg g2 c cs2 hwf]

theorem find?_replace (l : List Doc) (i : Nat) (d nd : Doc)
    (hnd : (nd.id == i) = true) :
    l.find? (fun x => x.id == i) = some d →
      (l.map (fun x => if x.id == i then nd else x)).find? (fun x => x.id == i) = some nd := by
  induction l with
  | nil => intro h; simp [List.find?] at h
  | cons a t ih =>
    intro h
    by_cases ha : (a.id == i) = true
    · rw [List.map_cons, if_pos ha]
      exact @List.find?_cons_of_pos Doc (fun x => x.id == i) nd
        (t.map fun x => if x.id == i then nd else x) hnd
    · rw [@List.find?_cons_of_neg Doc (fun x => x.id == i) a t ha] at h
      rw [List.map_cons, if_neg ha,
        @List.find?_cons_of_neg Doc (fun x => x.id == i) a
          (t.map fun x => if x.id == i then nd else x) ha]
      exact ih h

/-- C1: version-mismatch handling of `updateById`.  When the caller-supplied
`update.__v` is a NONZERO version differing from the stored `__v`, the call
aborts the transaction and fails with 409 `Concurrency conflict`; when the
caller omits `__v` — and likewise when it supplies the falsy version `0` —
the check is skipped and the update proceeds. -/
theorem C1_version_check (store : List Doc) (i : Nat) (u : UpdateQ) (d : Doc)
    (uv : Int) (e : Option DbErr)
    (hd : store.find? (fun x => x.id == i) = some d) :
    (u.__v = some uv → uv ≠ 0 → d.__v ≠ uv →
      (updateById store i u e).outcome = Except.error ⟨"Concurrency conflict", 409⟩
        ∧ (updateById store i u e).log.aborted = true)
    ∧ (u.__v = none →
      (updateById store i u none).outcome = Except.ok (some (applyUpdateDoc u d)))
    ∧ (u.__v = some 0 →
      (updateById store i u none).outcome = Except.ok (some (applyUpdateDoc u d))) := by
  refine ⟨?_, ?_, ?_⟩
  · intro hv huv hne
    have hvc : versionConflict u d = true := by
      simp [versionConflict, hv, huv, hne]
    constructor <;>
      simp [updateById, hd, updateByIdAux, hvc]
  · intro hv
    have hvc : versionConflict u d = false := by
      simp [versionConflict, hv]
    simp [updateById, hd, updateByIdAux, hvc]
  · intro hv
    have hvc : versionConflict u d = false := by
      simp [versionConflict, hv]
    simp [updateById, hd, updateByIdAux, hvc]

/-- C1 witness: a stored document with version 5 and an update carrying
version 3 yields the 409 conflict with the transaction aborted. -/
theorem C1_witness :
    (updateById [⟨1, 5, false, []⟩] 1 ⟨some 3, []⟩ none).outcome
        = Except.error ⟨"Concurrency conflict", 409⟩
      ∧ (updateById [⟨1, 5, false, []⟩] 1 ⟨some 3, []⟩ none).log.aborted = true :=
  (C1_version_check [⟨1, 5, false, []⟩] 1 ⟨some 3, []⟩ ⟨1, 5, false, []⟩ 3 none
    (by decide)).1 rfl (by decide) (by decide)

/-- C1 counterexample: the stored version is 1, the caller supplies the
differing version 0, yet no Conflict is raised — `0` is falsy in
JavaScript, so `update.__v && ...` skips the check and the update commits. -/
theorem C1_counterexample :
    (updateById [⟨1, 1, false, []⟩] 1 ⟨some 0, [("a", 5)]⟩ none).outcome
        = Except.ok (some ⟨1, 2, false, [("a", 5)]⟩)
      ∧ (updateById [⟨1, 1, false, []⟩] 1 ⟨some 0, [("a", 5)]⟩ none).log.committed = true
      ∧ (updateById [⟨1, 1, false, []⟩] 1 ⟨some 0, [("a", 5)]⟩ none).log.aborted = false := by
  refine ⟨rfl, rfl, rfl⟩

/-- C4: a successful `updateById` stores and returns the document with
`__v` incremented by exactly 1, commits the transaction and ends the
session. -/
theorem C4_update_success (store : List Doc) (i : Nat) (u : UpdateQ) (d : Doc)
    (hd : store.find? (fun x => x.id == i) = some d)
    (hnc : versionConflict u d = false) :
    (updateById store i u none).outcome = Except.ok (some (applyUpdateDoc u d))
    ∧ (applyUpdateDoc u d).__v = d.__v + 1
    ∧ (updateById store i u none).log.committed = true
    ∧ (updateById store i u none).log.ended = true
    ∧ (updateById store i u none).store.find? (fun x => x.id == i)
        = some (applyUpdateDoc u d) := by
  have hid : (d.id == i) = true :=
    @List.find?_some Doc (fun x => x.id == i) d store hd
  have hnd : ((applyUpdateDoc u d).id == i) = true := by
    simpa [applyUpdateDoc] using hid
  refine ⟨?_, rfl, ?_, ?_, ?_⟩
  · simp [updateById, hd, updateByIdAux, hnc]
  · simp [updateById, hd, updateByIdAux, hnc]
  · simp [updateById, hd, updateByIdAux, hnc]
  · simp only [updateById, hd, updateByIdAux, hnc, Bool.false_eq_true, if_false]
    exact find?_replace store i d (applyUpdateDoc u d) hnd hd

/-- C4 witness: updating document 1 (version 5) with payload `a := 7`
yields version 6, a commit, and the updated document both returned and
stored. -/
theorem C4_witness :
    (updateById [⟨1, 5, false, []⟩] 1 ⟨none, [("a", 7)]⟩ none).outcome
        = Except.ok (some ⟨1, 6, false, [("a", 7)]⟩)
      ∧ (updateById [⟨1, 5, false, []⟩] 1 ⟨none, [("a", 7)]⟩ none).log.committed = true
      ∧ (updateById [⟨1, 5, false, []⟩] 1 ⟨none, [("a", 7)]⟩ none).store.find?
          (fun x => x.id == 1) = some ⟨1, 6, false, [("a", 7)]⟩ := by
  have h := C4_update_success [⟨1, 5, false, []⟩] 1 ⟨none, [("a", 7)]⟩ ⟨1, 5, false, []⟩
    (by decide) (by decide)
  exact ⟨h.1, h.2.2.1, h.2.2.2.2⟩

/-- C5: `updateById` on a missing identifier fails with 404
`No data found with ID <id>`, with the transaction aborted, the session
ended and the store untouched; moreover EVERY thrown-failure exit of
`updateById` has the transaction aborted and the session ended. -/
theorem C5_notfound_cleanup (store : List Doc) (i : Nat) (u : UpdateQ)
    (e : Option DbErr)
    (hnone : store.find? (fun x => x.id == i) = none) :
    (updateById store i u e).outcome
        = Except.error ⟨"No data found with ID " ++ toString i, 404⟩
    ∧ (updateById store i u e).log.aborted = true
    ∧ (updateById store i u e).log.ended = true
    ∧ (updateById store i u e).store = store
    ∧ (∀ (st2 : List Doc) (i2 : Nat) (u2 : UpdateQ) (e2 : Option DbErr),
        isErrB (updateById st2 i2 u2 e2).outcome = true →
          (updateById st2 i2 u2 e2).log.aborted = true
            ∧ (updateById st2 i2 u2 e2).log.ended = true) := by
  refine ⟨?_, ?_, ?_, ?_, ?_⟩
  · simp [updateById, hnone, updateByIdAux]
  · simp [updateById, hnone, updateByIdAux]
  · simp [updateById, hnone, updateByIdAux]
  · simp [updateById, hnone, updateByIdAux]
  · intro st2 i2 u2 e2 herr
    rw [updateById] at herr ⊢
    cases hf : st2.find? (fun d => d.id == i2) with
    | none => simp [updateByIdAux]
    | some d2 =>
      rw [hf] at herr
      by_cases hvc : versionConflict u2 d2 = true
      · simp [updateByIdAux, hvc]
      · rw [Bool.not_eq_true] at hvc
        cases e2 with
        | some de => simp [updateByIdAux, hvc]
        | none => simp [updateByIdAux, hvc, isErrB] at herr

/-- C2 counterexample: one stored document with `deleted = true` and the
empty filter.  `count(filter)` is 1, but `findPaginated(filter).total` is 0,
because `findPaginated` counts against the filter with `deleted: false`
injected — so the claim `total = count(filter)` fails as stated. -/
theorem C2_counterexample :
    (findPaginated [⟨1, 0, true, []⟩] ⟨[], none⟩ none none).total
      ≠ countDocuments [⟨1, 0, true, []⟩] ⟨[], none⟩ := by
  decide

/-- C2 amended: for every filter and every skip/limit choice, the `total`
of `findPaginated` equals `count` of the filter EXTENDED WITH
`deleted: false` (the same filter its page query runs against), and is
therefore independent of `skip` and `limit`. -/
theorem C2_total_eq_count (store : List Doc) (f : Filter)
    (skipOpt limitOpt skipOpt2 limitOpt2 : Option Int) :
    (findPaginated store f skipOpt limitOpt).total
        = countDocuments store (injectDeletedFalse f)
      ∧ (findPaginated store f skipOpt limitOpt).total
        = (findPaginated store f skipOpt2 limitOpt2).total :=
  ⟨rfl, rfl⟩

/-- C3: for every store, filter and skip/limit choice (skip defaulting to 0
and the page size to 100), both `findPaginated` and `findPaginatedLean`
satisfy `hasNextPage ↔ skip + currentPageSize < total`,
`hasPreviousPage ↔ skip > 0`, and — whenever the page size is nonzero —
`pageNumber = floor(skip / currentPageSize) + 1`. -/
theorem C3_page_metadata (store : List Doc) (f : Filter)
    (skipOpt limitOpt : Option Int) :
    ((findPaginated store f skipOpt limitOpt).hasNextPage = true
        ↔ skipOpt.getD 0 + limitOpt.getD 100 < (findPaginated store f skipOpt limitOpt).total)
    ∧ ((findPaginated store f skipOpt limitOpt).hasPreviousPage = true
        ↔ 0 < skipOpt.getD 0)
    ∧ (limitOpt.getD 100 ≠ 0 →
        (findPaginated store f skipOpt limitOpt).pageNumber
          = some (Int.fdiv (skipOpt.getD 0) (limitOpt.getD 100) + 1))
    ∧ (( findPaginatedLean store f skipOpt limitOpt).hasNextPage = true
        ↔ skipOpt.getD 0 + limitOpt.getD 100
            < ( findPaginatedLean store f skipOpt limitOpt).total)
    ∧ (( findPaginatedLean store f skipOpt limitOpt).hasPreviousPage = true
        ↔ 0 < skipOpt.getD 0)
    ∧ (limitOpt.getD 100 ≠ 0 →
        ( findPaginatedLean store f skipOpt limitOpt).pageNumber
          = some (Int.fdiv (skipOpt.getD 0) (limitOpt.getD 100) + 1)) := by
  refine ⟨?_, ?_, ?_, ?_, ?_, ?_⟩
  · simp [findPaginated]
  · simp [findPaginated]
  · intro hl
    simp [findPaginated, jsFloorDiv, hl]
  · simp [ findPaginatedLean]
  · simp [ findPaginatedLean]
  · intro hl
    simp [ findPaginatedLean, jsFloorDiv, hl]

/-- C3 witness: with skip 2 and limit 2 the page number is 2 for both
variants (hypothesis `currentPageSize ≠ 0` discharged at 2). -/
theorem C3_witness :
    (findPaginated [] ⟨[], none⟩ (some 2) (some 2)).pageNumber = some 2
      ∧ ( findPaginatedLean [] ⟨[], none⟩ (some 2) (some 2)).pageNumber = some 2 :=
  ⟨(C3_page_metadata [] ⟨[], none⟩ (some 2) (some 2)).2.2.1 (by decide),
    (C3_page_metadata [] ⟨[], none⟩ (some 2) (some 2)).2.2.2.2.2 (by decide)⟩

/-- C7: `findById` on an identifier with no matching document fails with
404 `No data found with ID <id>`; `findOne` on a filter matching no
document returns `null` (a normal result, not an error). -/
theorem C7_findById_findOne (store : List Doc) (i : Nat) (f : Filter)
    (hnone : store.find? (fun d => d.id == i) = none)
    (hnm : ∀ d ∈ store, matchesFilter f d = false) :
    findById store i = Except.error ⟨"No data found with ID " ++ toString i, 404⟩
      ∧ findOne store f = none := by
  constructor
  · simp [findById, hnone]
  · rw [findOne, List.find?_eq_none]
    intro x hx
    simp [hnm x hx]

/-- C7 witness: a store with one document (payload `a = 1`), the missing
identifier 2 and the non-matching filter `a = 2`. -/
theorem C7_witness :
    findById [⟨1, 0, false, [("a", 1)]⟩] 2
        = Except.error ⟨"No data found with ID " ++ toString 2, 404⟩
      ∧ findOne [⟨1, 0, false, [("a", 1)]⟩] ⟨[("a", 2)], none⟩ = none :=
  C7_findById_findOne [⟨1, 0, false, [("a", 1)]⟩] 2 ⟨[("a", 2)], none⟩
    (by decide) (by decide)

/-- C8: `findPaginated` runs both its page query and its count against the
caller's filter extended with `deleted: false`, while `findPaginatedLean`
runs both against the caller's filter unmodified; concretely, a document
with `deleted = true` is returned by `findPaginatedLean` under the empty
filter but never by `findPaginated`. -/
theorem C8_deleted_injection :
    (∀ (store : List Doc) (f : Filter) (skipOpt limitOpt : Option Int),
      (findPaginated store f skipOpt limitOpt).data
          = pageData store (injectDeletedFalse f) (skipOpt.getD 0) (limitOpt.getD 100)
        ∧ (findPaginated store f skipOpt limitOpt).total
          = countDocuments store (injectDeletedFalse f))
    ∧ (∀ (store : List Doc) (f : Filter) (skipOpt limitOpt : Option Int),
      ( findPaginatedLean store f skipOpt limitOpt).data
          = pageData store f (skipOpt.getD 0) (limitOpt.getD 100)
        ∧ ( findPaginatedLean store f skipOpt limitOpt).total
          = countDocuments store f)
    ∧ ( findPaginatedLean [⟨1, 0, true, []⟩] ⟨[], none⟩ none none).data
        = [⟨1, 0, true, []⟩]
    ∧ (findPaginated [⟨1, 0, true, []⟩] ⟨[], none⟩ none none).data = [] := by
  refine ⟨fun store f s l => ⟨rfl, rfl⟩, fun store f s l => ⟨rfl, rfl⟩, ?_, ?_⟩ <;> decide

/-- C10: an explicit `limit` of 0 is kept (the `?? 100` default applies
only to an absent limit): `currentPageSize` is 0 and `pageNumber`, computed
as `Math.floor(skip / 0) + 1`, is not a finite integer for any skip
(modelled as `none`); an absent limit still defaults to 100. -/
theorem C10_limit_zero (store : List Doc) (f : Filter) (skipOpt : Option Int) :
    (findPaginated store f skipOpt (some 0)).currentPageSize = 0
      ∧ (findPaginated store f skipOpt (some 0)).pageNumber = none
      ∧ ( findPaginatedLean store f skipOpt (some 0)).currentPageSize = 0
      ∧ ( findPaginatedLean store f skipOpt (some 0)).pageNumber = none
      ∧ (findPaginated store f skipOpt none).currentPageSize = 100
      ∧ ( findPaginatedLean store f skipOpt none).currentPageSize = 100 := by
  refine ⟨rfl, ?_, rfl, ?_, rfl, rfl⟩ <;>
    simp [findPaginated, findPaginatedLean, jsFloorDiv]

/-- C6 counterexample: a store-level failure in `updateById`'s update step
(e.g. a duplicate-key error from `findByIdAndUpdate`) is caught but matches
neither internal sentinel, so `updateById` raises NO error at all — it
returns `undefined` — contradicting the claim that every failing call of
every write operation raises a normalized error. -/
theorem C6_counterexample :
    (updateById [⟨1, 0, false, []⟩] 1 ⟨none, []⟩ (some ⟨some 11000, "x"⟩)).outcome
        = Except.ok none
      ∧ isErrB (updateById [⟨1, 0, false, []⟩] 1 ⟨none, []⟩
          (some ⟨some 11000, "x"⟩)).outcome = false :=
  ⟨rfl, rfl⟩

/-- C6 amended: `create`, `createMany`, `count`, `distinctValues`,
`updateOne`, `updateMany`, `findOneAndUpdate`, `deleteOne`, `deleteMany`
and `aggregate` catch store-level failures and raise the error normalized
by `handleDatabaseError` (duplicate unique key → 400
`<keyValue JSON> already exists`, unrecognized code → 500
`Database operation failed`); but `fullTextSearch` lets the raw store
rejection escape un-normalized (its store call is returned without
`await` inside the `try`), and `updateById` normalizes only its own
NotFound/Conflict sentinels, silently swallowing any other store failure
after aborting (it returns `undefined` with no error). -/
theorem C6_error_normalization :
    (∀ e : DbErr,
      create (Except.error e) = Except.error (RepoErr.http (handleDatabaseError e))
      ∧ createMany (Except.error e) = Except.error (RepoErr.http (handleDatabaseError e))
      ∧ count (Except.error e) = Except.error (RepoErr.http (handleDatabaseError e))
      ∧ distinctValues (Except.error e) = Except.error (RepoErr.http (handleDatabaseError e))
      ∧ updateOne (Except.error e) = Except.error (RepoErr.http (handleDatabaseError e))
      ∧ updateMany (Except.error e) = Except.error (RepoErr.http (handleDatabaseError e))
      ∧ findOneAndUpdate (Except.error e)
          = Except.error (RepoErr.http (handleDatabaseError e))
      ∧ deleteOne (Except.error e) = Except.error (RepoErr.http (handleDatabaseError e))
      ∧ deleteMany (Except.error e) = Except.error (RepoErr.http (handleDatabaseError e))
      ∧ aggregate (Except.error e) = Except.error (RepoErr.http (handleDatabaseError e))
      ∧ fullTextSearch (Except.error e) = Except.error (RepoErr.raw e))
    ∧ (∀ kv : String,
        handleDatabaseError ⟨some 11000, kv⟩ = ⟨kv ++ " already exists", 400⟩)
    ∧ (∀ (c : Option Int) (kv : String),
        c ∉ ([some 11000, some 11001, some 12000, some 12010, some 12102,
              some 12134] : List (Option Int)) →
        handleDatabaseError ⟨c, kv⟩ = ⟨"Database operation failed", 500⟩)
    ∧ (∀ (store : List Doc) (i : Nat) (u : UpdateQ) (derr : DbErr) (d : Doc),
        store.find? (fun x => x.id == i) = some d →
        versionConflict u d = false →
        (updateById store i u (some derr)).outcome = Except.ok none
          ∧ (updateById store i u (some derr)).log.aborted = true
          ∧ (updateById store i u (some derr)).log.ended = true) := by
  refine ⟨fun e => ⟨rfl, rfl, rfl, rfl, rfl, rfl, rfl, rfl, rfl, rfl, rfl⟩,
    fun kv => rfl, ?_, ?_⟩
  · intro c kv h
    simp only [List.mem_cons, List.not_mem_nil, or_false, not_or] at h
    obtain ⟨h1, h2, h3, h4, h5, h6⟩ := h
    simp [handleDatabaseError, h1, h2, h3, h4, h5, h6]
  · intro store i u derr d hd hnc
    refine ⟨?_, ?_, ?_⟩ <;> simp [updateById, hd, updateByIdAux, hnc]

/-- C6 witness: an unrecognized store error code 99 is normalized by
`create` to 500 `Database operation failed`, while the same store failure
inside `updateById` produces the silent `undefined` return. -/
theorem C6_witness :
    create (Except.error ⟨some 99, "x"⟩)
        = Except.error (RepoErr.http ⟨"Database operation failed", 500⟩)
      ∧ (updateById [⟨1, 0, false, []⟩] 1 ⟨none, []⟩ (some ⟨some 99, "x"⟩)).outcome
        = Except.ok none := by
  constructor
  · rw [(C6_error_normalization.1 ⟨some 99, "x"⟩).1,
      C6_error_normalization.2.2.1 (some 99) "x" (by decide)]
  · exact (C6_error_normalization.2.2.2 [⟨1, 0, false, []⟩] 1 ⟨none, []⟩
      ⟨some 99, "x"⟩ ⟨1, 0, false, []⟩ (by decide) (by decide)).1

/-- C9 counterexample: in the filter string the word `gte` occurs only as a
FIELD VALUE, not as a key, yet the decorator's rewrite still turns it into
`$gte` — the regex `/\b(gte|...)\b/g` runs over the whole JSON text, so
non-key occurrences are not left unchanged. -/
theorem C9_counterexample :
    rewriteFilterString "\x7b\"name\":\"gte\"\x7d" = "\x7b\"name\":\"$gte\"\x7d" := by
  decide

/-- C9 amended: on EVERY filter string, the decorator's operator rewrite
equals the token-level rewrite `rewriteTokens`: the string splits into
maximal word-character runs and non-word separators, every run that is one
of the twelve operator words — whether it stands in key position, in value
position or anywhere else — is rewritten to its `$`-prefixed form, and
every other run (words outside the list, and listed words embedded inside
longer words) and every separator character is left unchanged. -/
theorem C9_word_rewrite :
    (∀ s : String, replaceOps s = String.mk (rewriteTokens s.toList))
    ∧ (∀ w : List Char, w ∈ mongoOps → rewriteToken w = '$' :: w)
    ∧ (∀ w : List Char, w ∉ mongoOps → rewriteToken w = w) := by
  refine ⟨?_, ?_, ?_⟩
  · intro s
    rw [replaceOps, rewriteTokens]
    exact congrArg String.mk
      ((replaceOpsFuel_eq_rewriteTokensFuel s.toList.length s.toList (Nat.le_refl _)
        s.toList.length (Nat.le_refl _) s.toList.length (Nat.le_refl _)).1)
  · intro w hw
    rw [rewriteToken, if_pos hw]
  · intro w hw
    rw [rewriteToken, if_neg hw]

/-- C9 witness: the rewrite of the counterexample's filter string is its
token-level rewrite; the operator word `gte` is `$`-prefixed as a token,
and the non-operator word `name` is left unchanged. -/
theorem C9_witness :
    replaceOps "\x7b\"name\":\"gte\"\x7d"
        = String.mk (rewriteTokens "\x7b\"name\":\"gte\"\x7d".toList)
      ∧ rewriteToken "gte".toList = '$' :: "gte".toList
      ∧ rewriteToken "name".toList = "name".toList :=
  ⟨C9_word_rewrite.1 "\x7b\"name\":\"gte\"\x7d",
    C9_word_rewrite.2.1 "gte".toList (by decide),
    C9_word_rewrite.2.2 "name".toList (by decide)⟩

/-- C5 witness: on the empty store, updating identifier 9 fails with the
404 message carrying the identifier, aborted and ended. -/
theorem C5_witness :
    (updateById [] 9 ⟨none, []⟩ none).outcome
        = Except.error ⟨"No data found with ID " ++ toString 9, 404⟩
      ∧ (updateById [] 9 ⟨none, []⟩ none).log.aborted = true
      ∧ (updateById [] 9 ⟨none, []⟩ none).log.ended = true :=
  ⟨(C5_notfound_cleanup [] 9 ⟨none, []⟩ none rfl).1,
    (C5_notfound_cleanup [] 9 ⟨none, []⟩ none rfl).2.1,
    (C5_notfound_cleanup [] 9 ⟨none, []⟩ none rfl).2.2.1⟩

end Repo
